import Mathlib

/-
  Verification of the matchbook place-resolution pipeline.

  Shallow embedding of:
    src/lib/maps.ts                (URL classification, coordinate and name extraction)
    src/lib/geocoding.ts           (Nominatim reverse and forward geocoding)
    src/lib/google-maps-scraper.ts (smartGeocode orchestrator, which duplicates the
                                    geocoding functions of geocoding.ts verbatim)

  Modelling conventions:
  - JavaScript numbers are modelled as rationals. Every numeric candidate in this
    code base is produced by parseFloat on a regex capture of shape -?\d+\.?\d*,
    which always denotes a finite decimal, so the isNaN guards of the source are
    vacuous in the model and NaN needs no representation.
  - JavaScript strings are Lean Strings; regex scanning is hand-compiled to
    deterministic character-list scanners. For each pattern used by the source the
    equivalence of the scanner with the regex engine is argued in a comment at the
    scanner.
  - Network calls (fetch) are modelled by oracle arguments or outcome values:
    a thrown exception, or a response carrying an ok flag and a parsed body.
  - JavaScript truthiness on strings (empty string is falsy) is modelled
    explicitly by strTruthy / jsOr / jsOrD.
-/

set_option maxRecDepth 10000

/- The Batteries rational operations are irreducible by default; witnesses
   evaluate concrete rational arithmetic with decide, which needs them
   unfolded.  The section extends to the end of the file. -/
section
attribute [local semireducible] Rat.add Rat.mul Rat.inv Rat.sub

/-! ## Characters, digits, decimal number parsing

  The coordinate regexes of maps.ts capture numbers of shape -?\d+\.?\d*
  (optional minus sign, one or more integer digits, optional dot, zero or more
  fraction digits).  Because every character that can follow such a capture in
  the source patterns is a delimiter that the number syntax cannot consume
  (one of !, comma, or end of input), the greedy maximal-munch parse below is
  exactly the regex semantics: regex backtracking can never rescue a failed
  maximal parse since shrinking the capture exposes a digit or a dot, never
  the delimiter. -/

def isDigit (c : Char) : Bool :=
  '0' ≤ c && c ≤ '9'

/-- Numeric value of a digit string, most significant digit first. -/
def digitsToNat (l : List Char) : Nat :=
  l.foldl (fun acc c => acc * 10 + (c.toNat - 48)) 0

/-- Longest digit prefix and the remaining characters (the \d* / \d+ munch). -/
def digSpan : List Char → List Char × List Char
  | [] => ([], [])
  | c :: r =>
    if isDigit c then
      let p := digSpan r
      (c :: p.1, p.2)
    else ([], c :: r)

/-- The optional leading minus sign of -?\d+\.?\d* . -/
def parseSign : List Char → Bool × List Char
  | [] => (false, [])
  | c :: r => if c = '-' then (true, r) else (false, c :: r)

/-- The optional dot and fraction digits of \.?\d* . -/
def parseDotFrac : List Char → List Char × List Char
  | [] => ([], [])
  | c :: r => if c = '.' then digSpan r else ([], c :: r)

def applySign (neg : Bool) (v : ℚ) : ℚ :=
  if neg then -v else v

/-- parseFloat applied to a capture of -?\d+\.?\d* , together with the suffix
    that follows the capture.  Fails when no integer digit is present, exactly
    when the regex capture fails. -/
def parseNum (l : List Char) : Option (ℚ × List Char) :=
  let s := parseSign l
  let ds := digSpan s.2
  if ds.1 = [] then none
  else
    let fr := parseDotFrac ds.2
    some (applySign s.1
      ((digitsToNat ds.1 : ℚ) + (digitsToNat fr.1 : ℚ) / (10 ^ fr.1.length : ℚ)), fr.2)

/-! ## Coordinates and range validation (maps.ts) -/

/-- interface Coordinates of maps.ts; numbers modelled as rationals. -/
structure Coordinates where
  lat : ℚ
  lng : ℚ
  deriving DecidableEq, Repr

/-- isValidCoordinate of maps.ts.  The source also tests isNaN on both inputs;
    in this model every candidate is a finite rational (see the header), so the
    two isNaN conjuncts are identically true and only the range checks remain. -/
def isValidCoordinate (lat lng : ℚ) : Bool :=
  decide (-90 ≤ lat) && decide (lat ≤ 90) && decide (-180 ≤ lng) && decide (lng ≤ 180)

/-! ## Literal matching and scanning -/

/-- Match a literal character sequence at the head of the input and return the
    rest, as a regex engine does for a literal fragment of a pattern. -/
def dropLit : List Char → List Char → Option (List Char)
  | [], l => some l
  | _ :: _, [] => none
  | c :: ps, x :: xs => if x = c then dropLit ps xs else none

/-- The pair fragment (-?\d+\.?\d*),(-?\d+\.?\d*) shared by the q= / ll= / @ /
    center= patterns of extractCoordinatesFromUrl. -/
def parsePair (l : List Char) : Option Coordinates :=
  match parseNum l with
  | none => none
  | some (lat, r) =>
    match dropLit [','] r with
    | none => none
    | some r2 =>
      match parseNum r2 with
      | none => none
      | some (lng, _) => some ⟨lat, lng⟩

/-- One attempt of /!3d(-?\d+\.?\d*)!4d(-?\d+\.?\d*)/ at the current position. -/
def tryBangAt (l : List Char) : Option Coordinates :=
  match dropLit ['!', '3', 'd'] l with
  | none => none
  | some r1 =>
    match parseNum r1 with
    | none => none
    | some (lat, r2) =>
      match dropLit ['!', '4', 'd'] r2 with
      | none => none
      | some r3 =>
        match parseNum r3 with
        | none => none
        | some (lng, _) => some ⟨lat, lng⟩

/-- One attempt of /@(-?\d+\.?\d*),(-?\d+\.?\d*)/ at the current position. -/
def tryAtAt (l : List Char) : Option Coordinates :=
  match dropLit ['@'] l with
  | none => none
  | some r => parsePair r

/-- One attempt of /[?&]q=(-?\d+\.?\d*),(-?\d+\.?\d*)/ at the current position. -/
def tryQAt (l : List Char) : Option Coordinates :=
  match l with
  | [] => none
  | c :: r =>
    if c = '?' ∨ c = '&' then
      match dropLit ['q', '='] r with
      | none => none
      | some r2 => parsePair r2
    else none

/-- One attempt of /[?&]ll=(-?\d+\.?\d*),(-?\d+\.?\d*)/ at the current position. -/
def tryLlAt (l : List Char) : Option Coordinates :=
  match l with
  | [] => none
  | c :: r =>
    if c = '?' ∨ c = '&' then
      match dropLit ['l', 'l', '='] r with
      | none => none
      | some r2 => parsePair r2
    else none

/-- One attempt of /[?&]center=(-?\d+\.?\d*),(-?\d+\.?\d*)/ at the current position. -/
def tryCenterAt (l : List Char) : Option Coordinates :=
  match l with
  | [] => none
  | c :: r =>
    if c = '?' ∨ c = '&' then
      match dropLit ['c', 'e', 'n', 't', 'e', 'r', '='] r with
      | none => none
      | some r2 => parsePair r2
    else none

/-- url.match(pattern): the leftmost position at which the pattern matches.
    Exactly the regex engine, which retries at the next position on failure. -/
def scanFirst (f : List Char → Option α) : List Char → Option α
  | [] => f []
  | c :: t =>
    match f (c :: t) with
    | some v => some v
    | none => scanFirst f t

/-- url.matchAll(pattern) for the !3d!4d pattern: all matches, left to right.
    The engine restarts after each match (lastIndex semantics), this scanner
    tries every position; the two agree for this pattern because a match body
    is !3d digits !4d digits whose only interior exclamation mark is the one
    of !4d, so no second match can start inside a match. -/
def scanAll (f : List Char → Option α) : List Char → List α
  | [] => (f []).toList
  | c :: t => (f (c :: t)).toList ++ scanAll f t

/-! ## extractCoordinatesFromUrl (maps.ts lines 123-237)

  The source is a cascade of five pattern blocks with early returns: a block
  that finds a valid candidate returns it, otherwise control falls through to
  the next block.  Each block is embedded as one candidate function below and
  extractCoordinatesFromUrl is the cascade over them in source order. -/

/-- The for-loop over bangMatches inside pattern 1 of extractCoordinatesFromUrl:
    return the first valid pair, except that when @ coordinates are present a
    valid pair is only returned when it differs from them by more than 0.0001
    on some axis (otherwise the loop continues). -/
def bangLoop (atCoords : Option Coordinates) : List Coordinates → Option Coordinates
  | [] => none
  | p :: rest =>
    if isValidCoordinate p.lat p.lng then
      match atCoords with
      | some a =>
        if |p.lat - a.lat| > 1/10000 ∨ |p.lng - a.lng| > 1/10000 then some p
        else bangLoop atCoords rest
      | none => some p
    else bangLoop atCoords rest

/-- Pattern 1 of extractCoordinatesFromUrl: the !3d!4d block (lines 129-172).
    bangMatches.length > 0 guards the block; inside, the loop above runs and,
    when it returns nothing, the first match is used if it is valid. -/
def bangCandidate (url : String) : Option Coordinates :=
  let bangMatches := scanAll tryBangAt url.data
  let atCoords := scanFirst tryAtAt url.data
  if 0 < bangMatches.length then
    match bangLoop atCoords bangMatches with
    | some c => some c
    | none =>
      -- If all !3d!4d coords match @ coords, still use the first one when valid
      match bangMatches with
      | p :: _ => if isValidCoordinate p.lat p.lng then some p else none
      | [] => none
  else none

/-- Pattern 2 of extractCoordinatesFromUrl: the ?q=lat,lng block (lines 174-186). -/
def qCandidate (url : String) : Option Coordinates :=
  match scanFirst tryQAt url.data with
  | some c => if isValidCoordinate c.lat c.lng then some c else none
  | none => none

/-- Pattern 3 of extractCoordinatesFromUrl: the ?ll=lat,lng block (lines 188-200). -/
def llCandidate (url : String) : Option Coordinates :=
  match scanFirst tryLlAt url.data with
  | some c => if isValidCoordinate c.lat c.lng then some c else none
  | none => none

/-- Pattern 4 of extractCoordinatesFromUrl: the /@lat,lng fallback block
    (lines 202-215), often the viewport center. -/
def atCandidate (url : String) : Option Coordinates :=
  match scanFirst tryAtAt url.data with
  | some c => if isValidCoordinate c.lat c.lng then some c else none
  | none => none

/-- Pattern 5 of extractCoordinatesFromUrl: the center=lat,lng block
    (lines 217-229), lowest priority. -/
def centerCandidate (url : String) : Option Coordinates :=
  match scanFirst tryCenterAt url.data with
  | some c => if isValidCoordinate c.lat c.lng then some c else none
  | none => none

/-- extractCoordinatesFromUrl of maps.ts.  The falsy-input guard maps to the
    empty-string test; the try/catch of the source is dead (nothing in the body
    throws) and is not represented.  Each pattern block either returns its
    candidate or falls through to the next, in source order. -/
def extractCoordinatesFromUrl (url : String) : Option Coordinates :=
  if url = "" then none
  else
    match bangCandidate url with
    | some c => some c
    | none =>
      match qCandidate url with
      | some c => some c
      | none =>
        match llCandidate url with
        | some c => some c
        | none =>
          match atCandidate url with
          | some c => some c
          | none =>
            match centerCandidate url with
            | some c => some c
            | none => none

/-- First defined value of a priority-ordered candidate list. -/
def firstSome : List (Option α) → Option α
  | [] => none
  | o :: rest =>
    match o with
    | some v => some v
    | none => firstSome rest

/-! ## Syntactic decimal literals

  A NumLit is a syntactic representation of a capture of -?\d+\.?\d* ; render
  gives its characters and val the rational parseFloat assigns to it.  These
  are used to state the round-trip property of claim C4: a URL built from the
  !3d!4d marker around two rendered literals extracts to exactly their values. -/

structure NumLit where
  neg : Bool
  intDs : List Char
  hasDot : Bool
  fracDs : List Char

/-- Well-formedness: at least one integer digit, only digits in both digit
    blocks, and fraction digits only behind a dot. -/
def NumLit.wf (n : NumLit) : Prop :=
  n.intDs ≠ [] ∧ (∀ c ∈ n.intDs, isDigit c = true) ∧
    (∀ c ∈ n.fracDs, isDigit c = true) ∧ (n.hasDot = false → n.fracDs = [])

def NumLit.render (n : NumLit) : List Char :=
  (if n.neg then ['-'] else []) ++ n.intDs ++ (if n.hasDot then '.' :: n.fracDs else [])

def NumLit.val (n : NumLit) : ℚ :=
  applySign n.neg
    ((digitsToNat n.intDs : ℚ) + (digitsToNat n.fracDs : ℚ) / (10 ^ n.fracDs.length : ℚ))

/-- A URL consisting of exactly the !3d{lat}!4d{lng} marker. -/
def bangUrlOf (a b : NumLit) : String :=
  ⟨'!' :: '3' :: 'd' :: (a.render ++ ('!' :: '4' :: 'd' :: b.render))⟩

def headNotDigit : List Char → Prop
  | [] => True
  | c :: _ => isDigit c = false

def headNotDot : List Char → Prop
  | [] => True
  | c :: _ => c ≠ '.'

/-- hasBang3 is true when some position starts with the two characters !3 . -/
def hasBang3 : List Char → Bool
  | x :: y :: r => if x = '!' ∧ y = '3' then true else hasBang3 (y :: r)
  | _ => false

/-! ## JavaScript string helpers -/

/-- JavaScript string truthiness: null/undefined and the empty string are falsy. -/
def strTruthy : Option String → Bool
  | some s => s != ""
  | none => false

/-- a || b for optional strings under JavaScript truthiness. -/
def jsOr (a b : Option String) : Option String :=
  if strTruthy a then a else b

/-- a || d with a string default: the JavaScript tail of an || chain. -/
def jsOrD : Option String → String → String
  | some s, d => if s = "" then d else s
  | none, d => d

/-- The character class removed by String.prototype.trim: ECMAScript WhiteSpace
    and LineTerminator code points (the Zs space separators that occur in
    practice are listed explicitly). -/
def isJsWhitespace (c : Char) : Bool :=
  c ∈ [' ', '\t', '\n', '\x0b', '\x0c', '\r', '\u00a0', '\u1680', '\u2000',
    '\u2001', '\u2002', '\u2003', '\u2004', '\u2005', '\u2006', '\u2007',
    '\u2008', '\u2009', '\u200a', '\u2028', '\u2029', '\u202f', '\u205f',
    '\u3000', '\ufeff']

/-- String.prototype.trim on a character list. -/
def jsTrimList (l : List Char) : List Char :=
  ((l.dropWhile isJsWhitespace).reverse.dropWhile isJsWhitespace).reverse

/-- String.prototype.trim. -/
def jsTrim (s : String) : String :=
  String.mk (jsTrimList s.data)

/-- Characters strictly before the first occurrence of the literal pat, or none
    when pat does not occur (String.prototype.includes plus split()[0]). -/
def beforeSub (pat : List Char) : List Char → Option (List Char)
  | [] => none
  | c :: t =>
    match dropLit pat (c :: t) with
    | some _ => some []
    | none => (beforeSub pat t).map (fun b => c :: b)

/-- Characters strictly before the first occurrence of pat that is followed by
    at least one character: the truncation point of replace(/ - .+$/, ""),
    whose .+ needs one character after the separator (the regex engine skips a
    trailing separator occurrence and retries further right). -/
def beforeSubNonempty (pat : List Char) : List Char → Option (List Char)
  | [] => none
  | c :: t =>
    match dropLit pat (c :: t) with
    | some rest =>
      if rest.isEmpty then (beforeSubNonempty pat t).map (fun b => c :: b)
      else some []
    | none => (beforeSubNonempty pat t).map (fun b => c :: b)

/-! ## cleanPlaceNameForGeocoding (maps.ts lines 357-381) -/

/-- cleanPlaceNameForGeocoding of maps.ts: drop everything from the first comma,
    then from the first " - " separator, then apply the (after step 2 inert)
    / - .+$/ replacement, trim, and return null for an empty result.  The
    falsy-input guard maps to the empty-string test. -/
def cleanPlaceNameForGeocoding (name : String) : Option String :=
  if name = "" then none
  else
    let step0 := name.data
    -- 1. split by comma and take the first part
    let step1 := if step0.contains ',' then step0.takeWhile (fun c => c != ',') else step0
    -- 2. split by " - " and take the first part
    let step2 :=
      match beforeSub [' ', '-', ' '] step1 with
      | some before => before
      | none => step1
    -- 3. remove a trailing " - ..." if any (replace / - .+$/ with "")
    let step3 :=
      match beforeSubNonempty [' ', '-', ' '] step2 with
      | some before => before
      | none => step2
    let cleaned := jsTrimList step3
    if cleaned.isEmpty then none else some (String.mk cleaned)

/-! ## decodeURIComponent

  JavaScript decodeURIComponent: percent escapes are decoded to bytes, runs of
  bytes must form valid (shortest-form, surrogate-free) UTF-8, and any
  malformed escape or byte sequence raises URIError.  Errors are modelled in
  Except with the URIError name as payload. -/

def hexVal (c : Char) : Option Nat :=
  if '0' ≤ c ∧ c ≤ '9' then some (c.toNat - 48)
  else if 'a' ≤ c ∧ c ≤ 'f' then some (c.toNat - 87)
  else if 'A' ≤ c ∧ c ≤ 'F' then some (c.toNat - 55)
  else none

/-- A token of the percent-decoding pass: a literal character or an escaped byte. -/
inductive UriTok where
  | raw (c : Char)
  | byte (b : Nat)

/-- First pass: resolve every %XX escape to a byte; malformed escapes raise. -/
def uriTokens : List Char → Except String (List UriTok)
  | [] => Except.ok []
  | '%' :: h :: lo :: r =>
    match hexVal h, hexVal lo with
    | some a, some b => (uriTokens r).map (fun ts => UriTok.byte (16 * a + b) :: ts)
    | _, _ => Except.error "URIError"
  | '%' :: _ => Except.error "URIError"
  | c :: r => (uriTokens r).map (fun ts => UriTok.raw c :: ts)

/-- A continuation byte 10xxxxxx and its payload. -/
def contByte : UriTok → Option Nat
  | UriTok.byte b => if 0x80 ≤ b ∧ b ≤ 0xBF then some (b - 0x80) else none
  | UriTok.raw _ => none

/-- Second pass: strict UTF-8 assembly of byte runs (no overlongs, no
    surrogates, at most U+10FFFF); literal characters pass through. -/
def utf8Assemble : List UriTok → Except String (List Char)
  | [] => Except.ok []
  | UriTok.raw c :: r => (utf8Assemble r).map (fun cs => c :: cs)
  | UriTok.byte b :: r =>
    if b < 0x80 then (utf8Assemble r).map (fun cs => Char.ofNat b :: cs)
    else if b < 0xC2 then Except.error "URIError"
    else if b ≤ 0xDF then
      match r with
      | t1 :: r2 =>
        match contByte t1 with
        | some c1 => (utf8Assemble r2).map (fun cs => Char.ofNat ((b - 0xC0) * 0x40 + c1) :: cs)
        | none => Except.error "URIError"
      | [] => Except.error "URIError"
    else if b ≤ 0xEF then
      match r with
      | t1 :: t2 :: r2 =>
        match contByte t1, contByte t2 with
        | some c1, some c2 =>
          let cp := (b - 0xE0) * 0x1000 + c1 * 0x40 + c2
          if cp < 0x800 ∨ (0xD800 ≤ cp ∧ cp ≤ 0xDFFF) then Except.error "URIError"
          else (utf8Assemble r2).map (fun cs => Char.ofNat cp :: cs)
        | _, _ => Except.error "URIError"
      | _ => Except.error "URIError"
    else if b ≤ 0xF4 then
      match r with
      | t1 :: t2 :: t3 :: r2 =>
        match contByte t1, contByte t2, contByte t3 with
        | some c1, some c2, some c3 =>
          let cp := (b - 0xF0) * 0x40000 + c1 * 0x1000 + c2 * 0x40 + c3
          if cp < 0x10000 ∨ 0x10FFFF < cp then Except.error "URIError"
          else (utf8Assemble r2).map (fun cs => Char.ofNat cp :: cs)
        | _, _, _ => Except.error "URIError"
      | _ => Except.error "URIError"
    else Except.error "URIError"

def decodeUriComponent (l : List Char) : Except String (List Char) :=
  match uriTokens l with
  | Except.error e => Except.error e
  | Except.ok ts => utf8Assemble ts

/-! ## extractPlaceNameFromUrl (maps.ts lines 306-342) -/

/-- One attempt of /\/place\/([^/@]+)/i at the current position: the literal
    /place/ (case-insensitively, via toLower on the input side) followed by a
    nonempty greedy run of characters outside the class [/@], which is the
    captured group. -/
def tryPlaceAt (l : List Char) : Option (List Char) :=
  match dropLit ['/', 'p', 'l', 'a', 'c', 'e', '/'] (l.map Char.toLower) with
  | none => none
  | some _ =>
    let seg := (l.drop 7).takeWhile (fun c => c != '/' && c != '@')
    if seg.isEmpty then none else some seg

/-- The capture of url.match(/\/place\/([^/@]+)/i): leftmost match wins; a
    /place/ occurrence immediately followed by / or @ fails there and the
    engine retries at the next position. -/
def placeSeg (l : List Char) : Option (List Char) :=
  scanFirst tryPlaceAt l

/-- match[1].replace(/\+/g, " "). -/
def plusDecode (l : List Char) : List Char :=
  l.map (fun c => if c = '+' then ' ' else c)

/-- The anchored pattern of digits ^\d+$ : nonempty and purely numeric. -/
def isAllDigits (l : List Char) : Bool :=
  !l.isEmpty && l.all isDigit

/-- The try block of extractPlaceNameFromUrl: find the /place/ capture, plus-
    and percent-decode it (decodeURIComponent may raise, hence Except), trim,
    and reject names that are shorter than 2 characters or purely numeric. -/
def extractPlaceNameTry (url : String) : Except String (Option String) :=
  match placeSeg url.data with
  | none => Except.ok none
  | some seg =>
    match decodeUriComponent (plusDecode seg) with
    | Except.error e => Except.error e
    | Except.ok decoded =>
      let placeName := jsTrimList decoded
      if placeName.length < 2 ∨ isAllDigits placeName then Except.ok none
      else Except.ok (some (String.mk placeName))

/-- extractPlaceNameFromUrl of maps.ts: the falsy-input guard, then the try
    block, with every thrown URIError caught and converted to null. -/
def extractPlaceNameFromUrl (url : String) : Option String :=
  if url = "" then none
  else
    match extractPlaceNameTry url with
    | Except.ok v => v
    | Except.error _ => none

/-! ## isGoogleMapsUrl (maps.ts lines 17-42)

  The four /i patterns are matched against the lowercased trimmed input, the
  pattern literals being written in lowercase; a .test call is containment, so
  a scanner tries every position.  Optional regex groups become explicit
  alternative lists of remainders. -/

def isAsciiLower (c : Char) : Bool :=
  'a' ≤ c && c ≤ 'z'

/-- The remainders allowed after the optional scheme (?:https?:\/\/)? . -/
def schemeTails (l : List Char) : List (List Char) :=
  [l] ++ (dropLit ['h', 't', 't', 'p', ':', '/', '/'] l).toList
    ++ (dropLit ['h', 't', 't', 'p', 's', ':', '/', '/'] l).toList

/-- The remainders allowed after the optional (?:www\.)? . -/
def wwwTails (l : List Char) : List (List Char) :=
  [l] ++ (dropLit ['w', 'w', 'w', '.'] l).toList

/-- The optional (?:\.[a-z]{2})? before a required continuation k. -/
def ccTail (k : List Char → Bool) (l : List Char) : Bool :=
  k l ||
    (match l with
     | '.' :: a :: b :: r => isAsciiLower a && isAsciiLower b && k r
     | _ => false)

/-- The alternation (?:com|[a-z]{2,3}(?:\.[a-z]{2})?) before a required continuation k. -/
def tldThen (k : List Char → Bool) (l : List Char) : Bool :=
  (match dropLit ['c', 'o', 'm'] l with
   | some r => k r
   | none => false) ||
  (match l with
   | a :: b :: r =>
     isAsciiLower a && isAsciiLower b &&
       (ccTail k r ||
         (match r with
          | c :: r2 => isAsciiLower c && ccTail k r2
          | [] => false))
   | _ => false)

/-- Pattern 1 at a position: (?:https?:\/\/)?(?:www\.)?google\.(?:com|[a-z]{2,3}(?:\.[a-z]{2})?)\/maps . -/
def p1At (l : List Char) : Bool :=
  (schemeTails l).any fun l1 =>
    (wwwTails l1).any fun l2 =>
      match dropLit ['g', 'o', 'o', 'g', 'l', 'e', '.'] l2 with
      | some r => tldThen (fun r2 => (dropLit ['/', 'm', 'a', 'p', 's'] r2).isSome) r
      | none => false

/-- Pattern 2 at a position: (?:https?:\/\/)?maps\.google\.(?:com|[a-z]{2,3}(?:\.[a-z]{2})?) . -/
def p2At (l : List Char) : Bool :=
  (schemeTails l).any fun l1 =>
    match dropLit ['m', 'a', 'p', 's', '.', 'g', 'o', 'o', 'g', 'l', 'e', '.'] l1 with
    | some r => tldThen (fun _ => true) r
    | none => false

/-- Pattern 3 at a position: (?:https?:\/\/)?goo\.gl\/maps\/ . -/
def p3At (l : List Char) : Bool :=
  (schemeTails l).any fun l1 =>
    (dropLit ['g', 'o', 'o', '.', 'g', 'l', '/', 'm', 'a', 'p', 's', '/'] l1).isSome

/-- Pattern 4 at a position: (?:https?:\/\/)?maps\.app\.goo\.gl\/ . -/
def p4At (l : List Char) : Bool :=
  (schemeTails l).any fun l1 =>
    (dropLit ['m', 'a', 'p', 's', '.', 'a', 'p', 'p', '.', 'g', 'o', 'o', '.', 'g', 'l', '/'] l1).isSome

/-- pattern.test(s): some position of s starts a match. -/
def testAnywhere (p : List Char → Bool) : List Char → Bool
  | [] => p []
  | c :: t => p (c :: t) || testAnywhere p t

/-- isGoogleMapsUrl of maps.ts: falsy guard, trim, then patterns.some(test). -/
def isGoogleMapsUrl (text : String) : Bool :=
  if text = "" then false
  else
    let trimmedText := (jsTrim text).data.map Char.toLower
    testAnywhere p1At trimmedText || testAnywhere p2At trimmedText ||
      testAnywhere p3At trimmedText || testAnywhere p4At trimmedText

/-! ## expandShortenedUrl (maps.ts lines 272-293) -/

/-- Outcome of the redirect-following HEAD fetch: a thrown network error, or a
    response whose url field is the final address after redirects. -/
inductive ExpandOutcome where
  | threw
  | resolved (finalUrl : String)

/-- expandShortenedUrl of maps.ts, over the fetch outcome: a throw is caught to
    null; a resolved final URL is returned only when it passes the
    isGoogleMapsUrl domain rules, otherwise null. -/
def expandShortenedUrl (outcome : ExpandOutcome) : Option String :=
  match outcome with
  | ExpandOutcome.threw => none
  | ExpandOutcome.resolved expandedUrl =>
    if isGoogleMapsUrl expandedUrl then some expandedUrl else none

/-! ## Geocoding client (geocoding.ts, duplicated in google-maps-scraper.ts)

  The Nominatim response body is modelled structurally; its lat/lon fields
  arrive as strings and pass through parseFloat, which is modelled by storing
  the parsed rational directly (no claim depends on the string form). -/

/-- The address sub-object of the Nominatim response (interface NominatimResponse). -/
structure NominatimAddress where
  amenity : Option String
  building : Option String
  shop : Option String
  tourism : Option String
  restaurant : Option String
  cafe : Option String
  pub : Option String
  road : Option String
  house_number : Option String
  suburb : Option String
  city : Option String
  town : Option String
  village : Option String
  state : Option String
  postcode : Option String
  country : Option String
  deriving DecidableEq

/-- interface NominatimResponse of geocoding.ts. -/
structure NominatimResponse where
  display_name : String
  name : Option String
  address : Option NominatimAddress
  type : Option String
  lat : ℚ
  lon : ℚ
  deriving DecidableEq

/-- interface PlaceInfo of geocoding.ts (the user-supplied extended fields
    rating/openingHours/website/phone and the source-tracking fields, which the
    geocoding functions never set, are omitted). -/
structure PlaceInfo where
  name : String
  address : String
  displayName : String
  lat : ℚ
  lng : ℚ
  placeType : Option String
  city : Option String
  country : Option String
  deriving DecidableEq

/-- Outcome of one fetch + response.json() round trip: a thrown exception
    (network failure or JSON error), or a response with its ok flag and parsed
    body. -/
inductive FetchOutcome (α : Type) where
  | threw
  | response (ok : Bool) (body : α)

/-- The name chain of reverseGeocode: data.name || amenity || building || shop
    || tourism || restaurant || cafe || pub || "Unnamed Place". -/
def nominatimName (data : NominatimResponse) : String :=
  jsOrD
    (jsOr data.name
      (jsOr (data.address.bind NominatimAddress.amenity)
        (jsOr (data.address.bind NominatimAddress.building)
          (jsOr (data.address.bind NominatimAddress.shop)
            (jsOr (data.address.bind NominatimAddress.tourism)
              (jsOr (data.address.bind NominatimAddress.restaurant)
                (jsOr (data.address.bind NominatimAddress.cafe)
                  (data.address.bind NominatimAddress.pub))))))))
    "Unnamed Place"

/-- The addressParts assembly shared by reverseGeocode and forwardGeocode:
    house number + road (or road alone), suburb, city/town/village, postcode,
    country, each pushed only when truthy. -/
def nominatimAddressParts (data : NominatimResponse) : List String :=
  match data.address with
  | none => []
  | some addr =>
    (if strTruthy addr.house_number && strTruthy addr.road then
      [addr.house_number.getD "" ++ " " ++ addr.road.getD ""]
    else if strTruthy addr.road then [addr.road.getD ""] else []) ++
    (if strTruthy addr.suburb then [addr.suburb.getD ""] else []) ++
    (let locality := jsOr addr.city (jsOr addr.town addr.village)
     if strTruthy locality then [locality.getD ""] else []) ++
    (if strTruthy addr.postcode then [addr.postcode.getD ""] else []) ++
    (if strTruthy addr.country then [addr.country.getD ""] else [])

/-- addressParts.join(", ") with fallback to display_name when no part exists. -/
def nominatimFormattedAddress (data : NominatimResponse) : String :=
  let addressParts := nominatimAddressParts data
  if 0 < addressParts.length then String.intercalate ", " addressParts
  else data.display_name

/-- The city field: data.address?.city || data.address?.town || data.address?.village. -/
def nominatimCity (data : NominatimResponse) : Option String :=
  jsOr (data.address.bind NominatimAddress.city)
    (jsOr (data.address.bind NominatimAddress.town)
      (data.address.bind NominatimAddress.village))

/-- reverseGeocode of geocoding.ts over the fetch outcome: a thrown exception
    is caught to null, a non-ok response logs and returns null, and an ok
    response is assembled into PlaceInfo. -/
def reverseGeocode (outcome : FetchOutcome NominatimResponse) : Option PlaceInfo :=
  match outcome with
  | FetchOutcome.threw => none
  | FetchOutcome.response ok data =>
    if !ok then none
    else
      some {
        name := nominatimName data
        address := nominatimFormattedAddress data
        displayName := data.display_name
        lat := data.lat
        lng := data.lon
        placeType := data.type
        city := nominatimCity data
        country := data.address.bind NominatimAddress.country }

/-- The name chain of forwardGeocode: result.name || amenity || building ||
    address.split(",")[0].trim(). -/
def forwardName (address : String) (result : NominatimResponse) : String :=
  jsOrD
    (jsOr result.name
      (jsOr (result.address.bind NominatimAddress.amenity)
        (result.address.bind NominatimAddress.building)))
    (jsTrim (String.mk (address.data.takeWhile (fun c => c != ','))))

/-- forwardGeocode of geocoding.ts over the fetch outcome: a thrown exception
    is caught to null, a non-ok response returns null, an ok response with an
    empty result array returns null, and otherwise the first result is
    assembled into PlaceInfo. -/
def forwardGeocode (address : String) (outcome : FetchOutcome (List NominatimResponse)) :
    Option PlaceInfo :=
  match outcome with
  | FetchOutcome.threw => none
  | FetchOutcome.response ok data =>
    if !ok then none
    else
      match data with
      | [] => none
      | result :: _ =>
        some {
          name := forwardName address result
          address := nominatimFormattedAddress result
          displayName := result.display_name
          lat := result.lat
          lng := result.lon
          placeType := result.type
          city := nominatimCity result
          country := result.address.bind NominatimAddress.country }

/-! ## smartGeocode (google-maps-scraper.ts lines 815-871)

  The orchestrator awaits geocoding calls sequentially; the model threads the
  reverse and forward geocoders as oracle functions (the value each awaited
  call resolves to) and additionally records the sequence of awaited external
  calls, so that the rate-limit claim about the delay helper is statable.  The
  source defines delay(ms) (a setTimeout promise) for the Nominatim
  1-request-per-second policy; an await of it would record a delayCall event. -/

inductive GeoSource where
  | url_coords
  | forward_geocode
  | reverse_geocode
  deriving DecidableEq

/-- interface SmartGeocodeResult of google-maps-scraper.ts. -/
structure SmartGeocodeResult where
  name : String
  address : String
  lat : ℚ
  lng : ℚ
  source : GeoSource
  placeInfo : Option PlaceInfo
  deriving DecidableEq

/-- interface SmartGeocodeOptions of google-maps-scraper.ts. -/
structure SmartGeocodeOptions where
  urlPlaceName : Option String
  extractedCoordinates : Option Coordinates
  googleMapsUrl : String
  deriving DecidableEq

/-- One awaited external call of the orchestrator. -/
inductive GeoEvent where
  | reverseCall (coords : Coordinates)
  | forwardCall (query : String)
  | delayCall (ms : Nat)
  deriving DecidableEq

/-- smartGeocode of google-maps-scraper.ts, returning the result together with
    the trace of awaited external calls in order.  Case 1 uses URL coordinates
    directly and reverse-geocodes once; case 2 forward-geocodes the URL place
    name and, when that fails and cleaning changes the name, retries once with
    the cleaned name immediately (no delay call is awaited in between); case 3
    returns null.  Truthiness of the strings follows JavaScript. -/
def smartGeocode (rev : Coordinates → Option PlaceInfo) (fwd : String → Option PlaceInfo)
    (options : SmartGeocodeOptions) : Option SmartGeocodeResult × List GeoEvent :=
  match options.extractedCoordinates with
  | some coords =>
    -- Case 1: coordinates from the URL are used directly
    let reverseResult := rev coords
    (some {
      name := jsOrD (jsOr options.urlPlaceName (reverseResult.map PlaceInfo.name)) "Unknown Place"
      address := jsOrD (reverseResult.map PlaceInfo.address) "Address not available"
      lat := coords.lat
      lng := coords.lng
      source := GeoSource.url_coords
      placeInfo := reverseResult }, [GeoEvent.reverseCall coords])
  | none =>
    if strTruthy options.urlPlaceName then
      -- Case 2: only a place name; forward geocode it
      let nm := options.urlPlaceName.getD ""
      match fwd nm with
      | some forwardResult =>
        (some {
          name := nm
          address := forwardResult.address
          lat := forwardResult.lat
          lng := forwardResult.lng
          source := GeoSource.forward_geocode
          placeInfo := some forwardResult }, [GeoEvent.forwardCall nm])
      | none =>
        -- If it fails, try the cleaned name (when cleaning changed the string)
        match cleanPlaceNameForGeocoding nm with
        | some cleanedName =>
          if cleanedName ≠ "" ∧ cleanedName ≠ nm then
            match fwd cleanedName with
            | some forwardResult =>
              (some {
                name := nm
                address := forwardResult.address
                lat := forwardResult.lat
                lng := forwardResult.lng
                source := GeoSource.forward_geocode
                placeInfo := some forwardResult },
               [GeoEvent.forwardCall nm, GeoEvent.forwardCall cleanedName])
            | none => (none, [GeoEvent.forwardCall nm, GeoEvent.forwardCall cleanedName])
          else (none, [GeoEvent.forwardCall nm])
        | none => (none, [GeoEvent.forwardCall nm])
    else
      -- Case 3: neither name nor coordinates
      (none, [])

/-! ## Concrete inputs used by witnesses and counterexamples -/

def c2Url : String :=
  "https://www.google.com/maps/place/X/@51.5007,-0.1268,17z/data=!3d51.6!4d-0.2"

def c3Url : String := "!3d90.0001!4d0!3d90.0!4d0@90.00005,0"

def c3TieUrl : String := "!3d51.5!4d-0.1@51.5,-0.1,17z"

/-! ## Concrete orchestrator inputs for witnesses -/

/-- Does an event come from the delay helper? -/
def GeoEvent.isDelay : GeoEvent → Bool
  | GeoEvent.delayCall _ => true
  | _ => false

def bigBenCoords : Coordinates := ⟨515007292/10000000, -1268141/10000000⟩

def bigBenRev : Coordinates → Option PlaceInfo :=
  fun _ => some ⟨"Palace of Westminster", "Westminster, London SW1A 0AA, United Kingdom",
    "Palace of Westminster, London", 515007/10000, -1268/10000, some "attraction",
    some "London", some "United Kingdom"⟩

def c1Options : SmartGeocodeOptions :=
  ⟨some "Big Ben", some bigBenCoords, "https://maps.app.goo.gl/abc"⟩

def c5Name : String := "Lina Stores Soho - Italian Restaurant, 51 Greek St"

def c5Cleaned : String := "Lina Stores Soho"

def linaPlace : PlaceInfo :=
  ⟨"Lina Stores", "51 Greek Street, London, United Kingdom",
    "Lina Stores, 51 Greek Street, Soho, London", 515134/10000, -1313/10000,
    some "restaurant", some "London", some "United Kingdom"⟩

def c5Fwd : String → Option PlaceInfo :=
  fun q => if q = c5Cleaned then some linaPlace else none

def c5Options : SmartGeocodeOptions := ⟨some c5Name, none, "https://maps.app.goo.gl/x"⟩

def c6Name : String := "Noble Rot Soho, 2 Greek St"

def c6Options : SmartGeocodeOptions := ⟨some c6Name, none, "https://maps.app.goo.gl/y"⟩

def c7BadUrl : String := "https://example.com/page"

def c7GoodUrl : String := "https://www.google.com/maps/place/Big+Ben"

def c9NoPlace : String := "https://maps.google.com/?q=1,2"

def c9Numeric : String := "https://www.google.com/maps/place/1234/@1,2,3z"

def c10Url : String := "https://www.google.com/maps/place/%"

/-! ## Lemmas about the number parser -/

theorem ne_of_digit {c d : Char} (h : isDigit c = true) (hd : isDigit d = false) : c ≠ d := by
  intro he
  rw [he, hd] at h
  exact Bool.noConfusion h

theorem digSpan_append (ds rest : List Char) (hd : ∀ c ∈ ds, isDigit c = true)
    (hr : headNotDigit rest) : digSpan (ds ++ rest) = (ds, rest) := by
  induction ds with
  | nil =>
    simp only [List.nil_append]
    cases rest with
    | nil => rfl
    | cons c t =>
      simp only [headNotDigit] at hr
      simp [digSpan, hr]
  | cons d ds' ih =>
    have hdd : isDigit d = true := hd d (List.mem_cons_self _ _)
    simp only [List.cons_append, digSpan, hdd, if_pos, List.append_eq]
    rw [ih (fun c hc => hd c (List.mem_cons_of_mem _ hc))]

theorem parseNum_render (n : NumLit) (hw : n.wf) (rest : List Char)
    (h1 : headNotDigit rest) (h2 : headNotDot rest) :
    parseNum (n.render ++ rest) = some (n.val, rest) := by
  obtain ⟨hne, hint, hfrac, hdot⟩ := hw
  obtain ⟨d, ds', hds⟩ : ∃ d ds', n.intDs = d :: ds' := by
    cases h : n.intDs with
    | nil => exact absurd h hne
    | cons d ds' => exact ⟨d, ds', rfl⟩
  have hdd : isDigit d = true := hint d (by rw [hds]; exact List.mem_cons_self _ _)
  have hsign :
      parseSign (n.render ++ rest) =
        (n.neg, n.intDs ++ ((if n.hasDot then '.' :: n.fracDs else []) ++ rest)) := by
    cases hn : n.neg with
    | true =>
      simp [NumLit.render, hn, parseSign, List.append_assoc]
    | false =>
      have hd' : d ≠ '-' := ne_of_digit hdd (by decide)
      simp [NumLit.render, hn, hds, parseSign, hd', List.append_assoc]
  have hspan :
      digSpan (n.intDs ++ ((if n.hasDot then '.' :: n.fracDs else []) ++ rest)) =
        (n.intDs, (if n.hasDot then '.' :: n.fracDs else []) ++ rest) := by
    apply digSpan_append _ _ hint
    cases hdt : n.hasDot with
    | true =>
      simp only [if_true, List.cons_append]
      show isDigit '.' = false
      decide
    | false =>
      simpa only [if_false, List.nil_append] using h1
  simp only [parseNum, hsign, hspan]
  rw [if_neg hne]
  cases hdt : n.hasDot with
  | true =>
    have hfs : digSpan (n.fracDs ++ rest) = (n.fracDs, rest) := digSpan_append _ _ hfrac h1
    simp [hdt, parseDotFrac, hfs, NumLit.val]
  | false =>
    have hf : n.fracDs = [] := hdot hdt
    cases rest with
    | nil => simp [hdt, parseDotFrac, NumLit.val, hf]
    | cons c t =>
      have hc : c ≠ '.' := h2
      simp [hdt, parseDotFrac, hc, NumLit.val, hf]

/-! ## Lemmas about the bang-pattern loop -/

theorem bangLoop_mem (ao : Option Coordinates) (ps : List Coordinates) (p : Coordinates)
    (h : bangLoop ao ps = some p) :
    p ∈ ps ∧ isValidCoordinate p.lat p.lng = true := by
  induction ps with
  | nil => simp [bangLoop] at h
  | cons q rest ih =>
    simp only [bangLoop] at h
    split at h
    · split at h
      · split at h
        · cases h
          exact ⟨List.mem_cons_self _ _, by assumption⟩
        · rcases ih h with ⟨hm, hv⟩
          exact ⟨List.mem_cons_of_mem _ hm, hv⟩
      · cases h
        exact ⟨List.mem_cons_self _ _, by assumption⟩
    · rcases ih h with ⟨hm, hv⟩
      exact ⟨List.mem_cons_of_mem _ hm, hv⟩

theorem bangLoop_none_of_ties (a : Coordinates) (ps : List Coordinates)
    (h : ∀ p ∈ ps, |p.lat - a.lat| ≤ 1/10000 ∧ |p.lng - a.lng| ≤ 1/10000) :
    bangLoop (some a) ps = none := by
  induction ps with
  | nil => rfl
  | cons q rest ih =>
    have hq := h q (List.mem_cons_self _ _)
    have hrest := ih fun p hp => h p (List.mem_cons_of_mem _ hp)
    have hnfar : ¬(|q.lat - a.lat| > 1/10000 ∨ |q.lng - a.lng| > 1/10000) := by
      push_neg
      simpa using hq
    by_cases hv : isValidCoordinate q.lat q.lng = true
    · simp only [bangLoop]
      rw [if_pos hv, if_neg hnfar, hrest]
    · simp only [bangLoop]
      rw [if_neg hv, hrest]

theorem bangLoop_finds (a : Coordinates) (ps : List Coordinates)
    (h : ∃ p ∈ ps, isValidCoordinate p.lat p.lng = true ∧
        (|p.lat - a.lat| > 1/10000 ∨ |p.lng - a.lng| > 1/10000)) :
    ∃ p, bangLoop (some a) ps = some p ∧ p ∈ ps ∧ isValidCoordinate p.lat p.lng = true ∧
        (|p.lat - a.lat| > 1/10000 ∨ |p.lng - a.lng| > 1/10000) := by
  induction ps with
  | nil =>
    obtain ⟨p, hp, _⟩ := h
    cases hp
  | cons q rest ih =>
    by_cases hv : isValidCoordinate q.lat q.lng = true
    · by_cases hfar : |q.lat - a.lat| > 1/10000 ∨ |q.lng - a.lng| > 1/10000
      · refine ⟨q, ?_, List.mem_cons_self _ _, hv, hfar⟩
        simp only [bangLoop]
        rw [if_pos hv, if_pos hfar]
      · have h' : ∃ p ∈ rest, isValidCoordinate p.lat p.lng = true ∧
            (|p.lat - a.lat| > 1/10000 ∨ |p.lng - a.lng| > 1/10000) := by
          obtain ⟨p, hp, hpv, hpf⟩ := h
          rcases List.mem_cons.mp hp with rfl | hm
          · exact absurd hpf hfar
          · exact ⟨p, hm, hpv, hpf⟩
        obtain ⟨p, hl, hm, hv2, hf2⟩ := ih h'
        refine ⟨p, ?_, List.mem_cons_of_mem _ hm, hv2, hf2⟩
        simp only [bangLoop]
        rw [if_pos hv, if_neg hfar, hl]
    · have h' : ∃ p ∈ rest, isValidCoordinate p.lat p.lng = true ∧
          (|p.lat - a.lat| > 1/10000 ∨ |p.lng - a.lng| > 1/10000) := by
        obtain ⟨p, hp, hpv, hpf⟩ := h
        rcases List.mem_cons.mp hp with rfl | hm
        · exact absurd hpv hv
        · exact ⟨p, hm, hpv, hpf⟩
      obtain ⟨p, hl, hm, hv2, hf2⟩ := ih h'
      refine ⟨p, ?_, List.mem_cons_of_mem _ hm, hv2, hf2⟩
      simp only [bangLoop]
      rw [if_neg hv, hl]

/-! ## Scanner lemmas needed for the constructed-URL round trip -/

/-- A literal fragment matches its own rendering. -/
theorem dropLit_self (pat rest : List Char) : dropLit pat (pat ++ rest) = some rest := by
  induction pat with
  | nil => rfl
  | cons c ps ih => simp [dropLit, ih]

theorem tryBangAt_nil : tryBangAt [] = none := rfl

theorem scanAll_bang_nil (l : List Char) (h : hasBang3 l = false) :
    scanAll tryBangAt l = [] := by
  induction l with
  | nil => rfl
  | cons c t ih =>
    cases t with
    | nil =>
      by_cases hc : c = '!' <;>
        simp [scanAll, tryBangAt, dropLit, hc]
    | cons y r =>
      simp only [hasBang3] at h
      split at h
      · cases h
      · rename_i hcy
        have ht : scanAll tryBangAt (y :: r) = [] := ih h
        have hnone : tryBangAt (c :: y :: r) = none := by
          by_cases hc : c = '!'
          · subst hc
            have hy : ¬(y = '3') := fun hy => hcy ⟨rfl, hy⟩
            simp [tryBangAt, dropLit, hy]
          · simp [tryBangAt, dropLit, hc]
        have hstep : scanAll tryBangAt (c :: y :: r) =
            (tryBangAt (c :: y :: r)).toList ++ scanAll tryBangAt (y :: r) := rfl
        rw [hstep, hnone, ht]
        rfl

theorem hasBang3_append_of_no_bang (l r : List Char) (h : ∀ c ∈ l, c ≠ '!') :
    hasBang3 (l ++ r) = hasBang3 r := by
  induction l with
  | nil => rfl
  | cons c t ih =>
    have hc : c ≠ '!' := h c (List.mem_cons_self _ _)
    have ht := ih fun x hx => h x (List.mem_cons_of_mem _ hx)
    rw [← ht]
    cases hw : t ++ r with
    | nil =>
      rw [List.cons_append, hw]
      rfl
    | cons y s =>
      rw [List.cons_append, hw]
      show (if c = '!' ∧ y = '3' then true else hasBang3 (y :: s)) = hasBang3 (y :: s)
      rw [if_neg fun hp => hc hp.1]

theorem hasBang3_of_no_bang (l : List Char) (h : ∀ c ∈ l, c ≠ '!') :
    hasBang3 l = false := by
  have := hasBang3_append_of_no_bang l [] h
  simpa using this

theorem scanFirst_at_none (l : List Char) (h : '@' ∉ l) :
    scanFirst tryAtAt l = none := by
  induction l with
  | nil => rfl
  | cons c t ih =>
    have hc : c ≠ '@' := fun hc => h (hc ▸ List.mem_cons_self _ _)
    have ht := ih fun hm => h (List.mem_cons_of_mem _ hm)
    simp [scanFirst, tryAtAt, dropLit, hc, ht]

/-! ## The priority decomposition of extractCoordinatesFromUrl -/

theorem extract_eq_firstSome (url : String) :
    extractCoordinatesFromUrl url =
      firstSome [bangCandidate url, qCandidate url, llCandidate url, atCandidate url,
        centerCandidate url] := by
  by_cases h : url = ""
  · subst h
    rfl
  · unfold extractCoordinatesFromUrl
    rw [if_neg h]
    cases bangCandidate url with
    | some v => rfl
    | none =>
      cases qCandidate url with
      | some v => rfl
      | none =>
        cases llCandidate url with
        | some v => rfl
        | none =>
          cases atCandidate url with
          | some v => rfl
          | none =>
            cases centerCandidate url with
            | some v => rfl
            | none => rfl

theorem bangCandidate_valid {url : String} {c : Coordinates}
    (h : bangCandidate url = some c) : isValidCoordinate c.lat c.lng = true := by
  simp only [bangCandidate] at h
  cases hbm : scanAll tryBangAt url.data with
  | nil =>
    rw [hbm] at h
    simp at h
  | cons p rest =>
    rw [hbm] at h
    rw [if_pos (by simp : 0 < (p :: rest).length)] at h
    cases hl : bangLoop (scanFirst tryAtAt url.data) (p :: rest) with
    | some x =>
      rw [hl] at h
      dsimp only at h
      cases h
      exact (bangLoop_mem _ _ _ hl).2
    | none =>
      rw [hl] at h
      dsimp only at h
      by_cases hv : isValidCoordinate p.lat p.lng = true
      · rw [if_pos hv] at h
        cases h
        exact hv
      · rw [if_neg hv] at h
        cases h

theorem qCandidate_valid {url : String} {c : Coordinates}
    (h : qCandidate url = some c) : isValidCoordinate c.lat c.lng = true := by
  simp only [qCandidate] at h
  cases hs : scanFirst tryQAt url.data with
  | none => rw [hs] at h; simp at h
  | some x =>
    rw [hs] at h
    dsimp only at h
    by_cases hv : isValidCoordinate x.lat x.lng = true
    · rw [if_pos hv] at h
      cases h
      exact hv
    · rw [if_neg hv] at h
      cases h

theorem llCandidate_valid {url : String} {c : Coordinates}
    (h : llCandidate url = some c) : isValidCoordinate c.lat c.lng = true := by
  simp only [llCandidate] at h
  cases hs : scanFirst tryLlAt url.data with
  | none => rw [hs] at h; simp at h
  | some x =>
    rw [hs] at h
    dsimp only at h
    by_cases hv : isValidCoordinate x.lat x.lng = true
    · rw [if_pos hv] at h
      cases h
      exact hv
    · rw [if_neg hv] at h
      cases h

theorem atCandidate_valid {url : String} {c : Coordinates}
    (h : atCandidate url = some c) : isValidCoordinate c.lat c.lng = true := by
  simp only [atCandidate] at h
  cases hs : scanFirst tryAtAt url.data with
  | none => rw [hs] at h; simp at h
  | some x =>
    rw [hs] at h
    dsimp only at h
    by_cases hv : isValidCoordinate x.lat x.lng = true
    · rw [if_pos hv] at h
      cases h
      exact hv
    · rw [if_neg hv] at h
      cases h

theorem centerCandidate_valid {url : String} {c : Coordinates}
    (h : centerCandidate url = some c) : isValidCoordinate c.lat c.lng = true := by
  simp only [centerCandidate] at h
  cases hs : scanFirst tryCenterAt url.data with
  | none => rw [hs] at h; simp at h
  | some x =>
    rw [hs] at h
    dsimp only at h
    by_cases hv : isValidCoordinate x.lat x.lng = true
    · rw [if_pos hv] at h
      cases h
      exact hv
    · rw [if_neg hv] at h
      cases h

theorem extract_valid {url : String} {c : Coordinates}
    (h : extractCoordinatesFromUrl url = some c) :
    isValidCoordinate c.lat c.lng = true := by
  rw [extract_eq_firstSome] at h
  simp only [firstSome] at h
  cases h1 : bangCandidate url with
  | some v =>
    rw [h1] at h
    cases h
    exact bangCandidate_valid h1
  | none =>
    rw [h1] at h
    cases h2 : qCandidate url with
    | some v =>
      rw [h2] at h
      cases h
      exact qCandidate_valid h2
    | none =>
      rw [h2] at h
      cases h3 : llCandidate url with
      | some v =>
        rw [h3] at h
        cases h
        exact llCandidate_valid h3
      | none =>
        rw [h3] at h
        cases h4 : atCandidate url with
        | some v =>
          rw [h4] at h
          cases h
          exact atCandidate_valid h4
        | none =>
          rw [h4] at h
          cases h5 : centerCandidate url with
          | some v =>
            rw [h5] at h
            cases h
            exact centerCandidate_valid h5
          | none =>
            rw [h5] at h
            cases h

/-! ## Character facts about rendered literals -/

theorem render_chars (n : NumLit) (hw : n.wf) :
    ∀ c ∈ n.render, c = '-' ∨ isDigit c = true ∨ c = '.' := by
  obtain ⟨hne, hint, hfrac, hdot⟩ := hw
  intro c hc
  simp only [NumLit.render, List.mem_append] at hc
  rcases hc with (hc | hc) | hc
  · cases hn : n.neg with
    | false => rw [hn] at hc; simp at hc
    | true =>
      rw [hn] at hc
      simp at hc
      exact Or.inl hc
  · exact Or.inr (Or.inl (hint c hc))
  · cases hn : n.hasDot with
    | false => rw [hn] at hc; simp at hc
    | true =>
      rw [hn] at hc
      simp at hc
      rcases hc with hc | hc
      · exact Or.inr (Or.inr hc)
      · exact Or.inr (Or.inl (hfrac c hc))

theorem render_ne (n : NumLit) (hw : n.wf) (x : Char)
    (h1 : x ≠ '-') (h2 : isDigit x = false) (h3 : x ≠ '.') : x ∉ n.render := by
  intro hx
  rcases render_chars n hw x hx with h | h | h
  · exact h1 h
  · rw [h2] at h; cases h
  · exact h3 h

/-! ## The round trip for a URL built from the !3d!4d marker -/

theorem bangUrl_roundtrip (a b : NumLit) (hwa : a.wf) (hwb : b.wf)
    (hv : isValidCoordinate a.val b.val = true) :
    extractCoordinatesFromUrl (bangUrlOf a b) = some ⟨a.val, b.val⟩ := by
  have hB : ∀ c ∈ a.render, c ≠ '!' := fun c hc he =>
    render_ne a hwa '!' (by decide) (by decide) (by decide) (he ▸ hc)
  have hB2 : ∀ c ∈ b.render, c ≠ '!' := fun c hc he =>
    render_ne b hwb '!' (by decide) (by decide) (by decide) (he ▸ hc)
  have hA : '@' ∉ a.render := render_ne a hwa '@' (by decide) (by decide) (by decide)
  have hA2 : '@' ∉ b.render := render_ne b hwb '@' (by decide) (by decide) (by decide)
  have hdata : (bangUrlOf a b).data
      = '!' :: '3' :: 'd' :: (a.render ++ ('!' :: '4' :: 'd' :: b.render)) := rfl
  have hhead : tryBangAt ('!' :: '3' :: 'd' :: (a.render ++ ('!' :: '4' :: 'd' :: b.render)))
      = some ⟨a.val, b.val⟩ := by
    have h1 : dropLit ['!', '3', 'd']
        ('!' :: '3' :: 'd' :: (a.render ++ ('!' :: '4' :: 'd' :: b.render)))
        = some (a.render ++ ('!' :: '4' :: 'd' :: b.render)) :=
      dropLit_self ['!', '3', 'd'] _
    have h2 : parseNum (a.render ++ ('!' :: '4' :: 'd' :: b.render))
        = some (a.val, '!' :: '4' :: 'd' :: b.render) :=
      parseNum_render a hwa _ (show isDigit '!' = false by decide)
        (show ('!' : Char) ≠ '.' by decide)
    have h3 : dropLit ['!', '4', 'd'] ('!' :: '4' :: 'd' :: b.render) = some b.render :=
      dropLit_self ['!', '4', 'd'] _
    have h4 : parseNum b.render = some (b.val, []) := by
      have h5 := parseNum_render b hwb [] trivial trivial
      rwa [List.append_nil] at h5
    simp only [tryBangAt, h1, h2, h3, h4]
  have htail : scanAll tryBangAt ('3' :: 'd' :: (a.render ++ ('!' :: '4' :: 'd' :: b.render)))
      = [] := by
    apply scanAll_bang_nil
    have e1 : '3' :: 'd' :: (a.render ++ ('!' :: '4' :: 'd' :: b.render))
        = ('3' :: 'd' :: a.render) ++ ('!' :: '4' :: 'd' :: b.render) := rfl
    rw [e1]
    have hno : ∀ c ∈ ('3' :: 'd' :: a.render), c ≠ '!' := by
      intro c hc
      rcases List.mem_cons.mp hc with rfl | hc2
      · decide
      rcases List.mem_cons.mp hc2 with rfl | hc3
      · decide
      · exact hB c hc3
    rw [hasBang3_append_of_no_bang _ _ hno]
    show (if ('!' : Char) = '!' ∧ ('4' : Char) = '3' then true
      else hasBang3 ('4' :: 'd' :: b.render)) = false
    rw [if_neg (by decide)]
    apply hasBang3_of_no_bang
    intro c hc
    rcases List.mem_cons.mp hc with rfl | hc2
    · decide
    rcases List.mem_cons.mp hc2 with rfl | hc3
    · decide
    · exact hB2 c hc3
  have hscan : scanAll tryBangAt (bangUrlOf a b).data = [⟨a.val, b.val⟩] := by
    rw [hdata]
    have e : scanAll tryBangAt ('!' :: '3' :: 'd' :: (a.render ++ ('!' :: '4' :: 'd' :: b.render)))
        = (tryBangAt ('!' :: '3' :: 'd' :: (a.render ++ ('!' :: '4' :: 'd' :: b.render)))).toList
          ++ scanAll tryBangAt ('3' :: 'd' :: (a.render ++ ('!' :: '4' :: 'd' :: b.render))) := rfl
    rw [e, hhead, htail]
    rfl
  have hat : scanFirst tryAtAt (bangUrlOf a b).data = none := by
    rw [hdata]
    apply scanFirst_at_none
    intro hmem
    rcases List.mem_cons.mp hmem with h | hmem2
    · exact absurd h (by decide)
    rcases List.mem_cons.mp hmem2 with h | hmem3
    · exact absurd h (by decide)
    rcases List.mem_cons.mp hmem3 with h | hmem4
    · exact absurd h (by decide)
    rcases List.mem_append.mp hmem4 with h | hmem5
    · exact hA h
    rcases List.mem_cons.mp hmem5 with h | hmem6
    · exact absurd h (by decide)
    rcases List.mem_cons.mp hmem6 with h | hmem7
    · exact absurd h (by decide)
    rcases List.mem_cons.mp hmem7 with h | hmem8
    · exact absurd h (by decide)
    · exact hA2 hmem8
  have hbl : bangLoop none [(⟨a.val, b.val⟩ : Coordinates)] = some ⟨a.val, b.val⟩ := by
    simp only [bangLoop]
    rw [if_pos hv]
  have hbc : bangCandidate (bangUrlOf a b) = some ⟨a.val, b.val⟩ := by
    simp only [bangCandidate]
    rw [hscan, hat, hbl]
    rw [if_pos (by simp : 0 < ([(⟨a.val, b.val⟩ : Coordinates)]).length)]
  have hurl : bangUrlOf a b ≠ "" := by
    intro he
    exact List.noConfusion (congrArg String.data he)
  unfold extractCoordinatesFromUrl
  rw [if_neg hurl, hbc]

/-- C2: for every URL string containing an @lat,lng marker and a valid
    (in-range) !3d!4d pair whose lat or lng differs from the @ pair by more
    than 0.0001 degrees, extractCoordinatesFromUrl returns such a !3d!4d pair
    (the first valid differing one), not the @ pair; and in general the five
    patterns (!3d!4d, q=, ll=, @, center=) are tried in strict priority order,
    the result being the first pattern candidate that passes range validation. -/
theorem C2_bang_priority_over_at :
    (∀ (url : String) (a : Coordinates),
        scanFirst tryAtAt url.data = some a →
        (∃ p ∈ scanAll tryBangAt url.data,
            isValidCoordinate p.lat p.lng = true ∧
              (|p.lat - a.lat| > 1/10000 ∨ |p.lng - a.lng| > 1/10000)) →
        ∃ p ∈ scanAll tryBangAt url.data,
            isValidCoordinate p.lat p.lng = true ∧
            (|p.lat - a.lat| > 1/10000 ∨ |p.lng - a.lng| > 1/10000) ∧
            p ≠ a ∧ extractCoordinatesFromUrl url = some p) ∧
    (∀ url : String,
        extractCoordinatesFromUrl url =
          firstSome [bangCandidate url, qCandidate url, llCandidate url, atCandidate url,
            centerCandidate url]) := by
  constructor
  · intro url a hat hex
    obtain ⟨p, hl, hm, hv, hf⟩ := bangLoop_finds a (scanAll tryBangAt url.data) hex
    have hne_p : p ≠ a := by
      intro he
      rcases hf with hf2 | hf2
      · rw [he, sub_self, abs_zero] at hf2
        exact absurd hf2 (by norm_num)
      · rw [he, sub_self, abs_zero] at hf2
        exact absurd hf2 (by norm_num)
    refine ⟨p, hm, hv, hf, hne_p, ?_⟩
    have hurl : url ≠ "" := by
      intro he
      subst he
      exact List.not_mem_nil p hm
    have hbc : bangCandidate url = some p := by
      simp only [bangCandidate]
      rw [hat, hl]
      rw [if_pos (List.length_pos.mpr (List.ne_nil_of_mem hm))]
    unfold extractCoordinatesFromUrl
    rw [if_neg hurl, hbc]
  · exact extract_eq_firstSome

/-- C2 witness: a URL carrying both @51.5007,-0.1268 and !3d51.6!4d-0.2; the
    extractor returns the !3d!4d pair. -/
theorem C2_bang_priority_over_at_witness :
    ∃ p ∈ scanAll tryBangAt c2Url.data,
        isValidCoordinate p.lat p.lng = true ∧
        (|p.lat - (515007/10000 : ℚ)| > 1/10000 ∨ |p.lng - (-317/2500 : ℚ)| > 1/10000) ∧
        p ≠ ⟨515007/10000, -317/2500⟩ ∧ extractCoordinatesFromUrl c2Url = some p :=
  C2_bang_priority_over_at.1 c2Url ⟨515007/10000, -317/2500⟩ (by decide) (by decide)

/-- C3 counterexample: in c3Url every !3d!4d pair ((90.0001, 0) and (90.0, 0))
    matches the @90.00005,0 marker within 0.0001 degrees on both axes, yet the
    extractor returns none rather than a !3d!4d pair: the fallback only
    considers the first pair, which is out of range, and the remaining valid
    pair (90.0, 0) is never returned. -/
theorem C3_tie_counterexample :
    scanFirst tryAtAt c3Url.data = some ⟨9000005/100000, 0⟩ ∧
    scanAll tryBangAt c3Url.data = [⟨900001/10000, 0⟩, ⟨90, 0⟩] ∧
    (∀ p ∈ scanAll tryBangAt c3Url.data,
        |p.lat - (9000005/100000 : ℚ)| ≤ 1/10000 ∧ |p.lng - (0 : ℚ)| ≤ 1/10000) ∧
    isValidCoordinate (90 : ℚ) 0 = true ∧
    extractCoordinatesFromUrl c3Url = none := by
  decide

/-- C3 amended: when every !3d!4d pair of the URL matches the @ marker within
    0.0001 degrees on both axes, the extractor falls back to the FIRST !3d!4d
    pair provided that this first pair passes range validation (when the first
    pair is out of range the !3d!4d pattern yields nothing and lower-priority
    patterns are tried instead). -/
theorem C3_tie_first_pair :
    ∀ (url : String) (a p : Coordinates) (rest : List Coordinates),
      scanFirst tryAtAt url.data = some a →
      scanAll tryBangAt url.data = p :: rest →
      (∀ q ∈ p :: rest, |q.lat - a.lat| ≤ 1/10000 ∧ |q.lng - a.lng| ≤ 1/10000) →
      isValidCoordinate p.lat p.lng = true →
      extractCoordinatesFromUrl url = some p := by
  intro url a p rest hat hbm hties hv
  have hurl : url ≠ "" := by
    intro he
    subst he
    exact List.noConfusion hbm
  have hloop : bangLoop (some a) (scanAll tryBangAt url.data) = none := by
    rw [hbm]
    exact bangLoop_none_of_ties a (p :: rest) hties
  have hbc : bangCandidate url = some p := by
    simp only [bangCandidate]
    rw [hat, hloop, hbm]
    rw [if_pos (by simp : 0 < (p :: rest).length)]
    dsimp only
    rw [if_pos hv]
  unfold extractCoordinatesFromUrl
  rw [if_neg hurl, hbc]

/-- C3 amended witness: a tie URL whose single !3d!4d pair equals the @ pair;
    the first (valid) pair is returned. -/
theorem C3_tie_first_pair_witness :
    extractCoordinatesFromUrl c3TieUrl = some ⟨103/2, -1/10⟩ :=
  C3_tie_first_pair c3TieUrl ⟨103/2, -1/10⟩ ⟨103/2, -1/10⟩ []
    (by decide) (by decide) (by decide) (by decide)

/-- C4: every non-null result of extractCoordinatesFromUrl satisfies the range
    invariant (lat in [-90, 90], lng in [-180, 180]; NaN cannot arise, see
    isValidCoordinate); and for every in-range pair of decimal literals, the
    URL consisting of the !3d{lat}!4d{lng} marker extracts to exactly that
    pair. -/
theorem C4_range_invariant_roundtrip :
    (∀ (url : String) (c : Coordinates),
        extractCoordinatesFromUrl url = some c → isValidCoordinate c.lat c.lng = true) ∧
    (∀ a b : NumLit, a.wf → b.wf → isValidCoordinate a.val b.val = true →
        extractCoordinatesFromUrl (bangUrlOf a b) = some ⟨a.val, b.val⟩) :=
  ⟨fun _ _ h => extract_valid h, fun a b hwa hwb hv => bangUrl_roundtrip a b hwa hwb hv⟩

/-- C4 witness: the literal pair 51.5 / -0.1 round-trips through the
    constructed !3d51.5!4d-0.1 URL, and the extracted pair is in range. -/
theorem C4_range_invariant_roundtrip_witness :
    extractCoordinatesFromUrl (bangUrlOf ⟨false, ['5', '1'], true, ['5']⟩
        ⟨true, ['0'], true, ['1']⟩) = some ⟨103/2, -1/10⟩ ∧
    isValidCoordinate (103/2 : ℚ) (-1/10 : ℚ) = true := by
  constructor
  · have h := C4_range_invariant_roundtrip.2 ⟨false, ['5', '1'], true, ['5']⟩
      ⟨true, ['0'], true, ['1']⟩ ⟨by decide, by decide, by decide, by decide⟩
      ⟨by decide, by decide, by decide, by decide⟩ (by decide)
    rw [h]
    decide
  · exact C4_range_invariant_roundtrip.1
      (bangUrlOf ⟨false, ['5', '1'], true, ['5']⟩ ⟨true, ['0'], true, ['1']⟩)
      ⟨103/2, -1/10⟩
      (by decide)

/-- C1: whenever extractedCoordinates is non-null, smartGeocode returns a
    non-null result (even when the reverse geocoder returns null) tagged
    url_coords, with lat/lng exactly the extracted coordinates, name the URL
    name when truthy, else the reverse-geocoded name, else Unknown Place, and
    address the reverse-geocoded address, else Address not available. -/
theorem C1_url_coords_branch :
    ∀ (rev : Coordinates → Option PlaceInfo) (fwd : String → Option PlaceInfo)
      (options : SmartGeocodeOptions) (coords : Coordinates),
      options.extractedCoordinates = some coords →
      ∃ r, (smartGeocode rev fwd options).1 = some r ∧
        r.source = GeoSource.url_coords ∧
        r.lat = coords.lat ∧ r.lng = coords.lng ∧
        r.name = jsOrD (jsOr options.urlPlaceName ((rev coords).map PlaceInfo.name))
          "Unknown Place" ∧
        r.address = jsOrD ((rev coords).map PlaceInfo.address) "Address not available" ∧
        r.placeInfo = rev coords := by
  intro rev fwd options coords h
  obtain ⟨nm, ec, gm⟩ := options
  dsimp only at h
  subst h
  exact ⟨_, rfl, rfl, rfl, rfl, rfl, rfl, rfl⟩

/-- C1 witness: the Big Ben scenario with a reverse-geocode stub returning an
    address: the URL name wins, the stub address is used, source is url_coords. -/
theorem C1_url_coords_branch_witness :
    ∃ r, (smartGeocode bigBenRev (fun _ => none) c1Options).1 = some r ∧
      r.source = GeoSource.url_coords ∧
      r.lat = bigBenCoords.lat ∧ r.lng = bigBenCoords.lng ∧
      r.name = jsOrD (jsOr c1Options.urlPlaceName
        ((bigBenRev bigBenCoords).map PlaceInfo.name)) "Unknown Place" ∧
      r.address = jsOrD ((bigBenRev bigBenCoords).map PlaceInfo.address)
        "Address not available" ∧
      r.placeInfo = bigBenRev bigBenCoords :=
  C1_url_coords_branch bigBenRev (fun _ => none) c1Options bigBenCoords rfl

/-- C5: with null coordinates, smartGeocode returns null immediately when the
    name is also absent; a truthy name is forward-geocoded, a failure retries
    exactly once with the cleaned name only when cleaning changed the string,
    success keeps the original name with the geocoded address and coordinates
    under source forward_geocode, and total failure returns null. -/
theorem C5_forward_geocode_branch :
    ∀ (rev : Coordinates → Option PlaceInfo) (fwd : String → Option PlaceInfo)
      (options : SmartGeocodeOptions),
      options.extractedCoordinates = none →
      ((options.urlPlaceName = none ∨ options.urlPlaceName = some "") →
        smartGeocode rev fwd options = (none, [])) ∧
      (∀ nm fr, options.urlPlaceName = some nm → nm ≠ "" → fwd nm = some fr →
        smartGeocode rev fwd options =
          (some ⟨nm, fr.address, fr.lat, fr.lng, GeoSource.forward_geocode, some fr⟩,
           [GeoEvent.forwardCall nm])) ∧
      (∀ nm cn fr, options.urlPlaceName = some nm → nm ≠ "" → fwd nm = none →
        cleanPlaceNameForGeocoding nm = some cn → cn ≠ "" → cn ≠ nm → fwd cn = some fr →
        smartGeocode rev fwd options =
          (some ⟨nm, fr.address, fr.lat, fr.lng, GeoSource.forward_geocode, some fr⟩,
           [GeoEvent.forwardCall nm, GeoEvent.forwardCall cn])) ∧
      (∀ nm cn, options.urlPlaceName = some nm → nm ≠ "" → fwd nm = none →
        cleanPlaceNameForGeocoding nm = some cn → cn ≠ "" → cn ≠ nm → fwd cn = none →
        smartGeocode rev fwd options =
          (none, [GeoEvent.forwardCall nm, GeoEvent.forwardCall cn])) ∧
      (∀ nm, options.urlPlaceName = some nm → nm ≠ "" → fwd nm = none →
        (cleanPlaceNameForGeocoding nm = none ∨ cleanPlaceNameForGeocoding nm = some nm) →
        smartGeocode rev fwd options = (none, [GeoEvent.forwardCall nm])) := by
  intro rev fwd options hec
  obtain ⟨u, ec, gm⟩ := options
  dsimp only at hec
  subst hec
  dsimp only
  refine ⟨?_, ?_, ?_, ?_, ?_⟩
  · rintro (h | h) <;> (subst h; rfl)
  · intro nm fr hn hne hf
    subst hn
    simp only [smartGeocode]
    rw [if_pos (show strTruthy (some nm) = true by simp [strTruthy, hne])]
    dsimp only [Option.getD]
    rw [hf]
  · intro nm cn fr hn hne hf1 hcl hcne hcnm hf2
    subst hn
    simp only [smartGeocode]
    rw [if_pos (show strTruthy (some nm) = true by simp [strTruthy, hne])]
    dsimp only [Option.getD]
    rw [hf1, hcl]
    dsimp only
    rw [if_pos (show cn ≠ "" ∧ cn ≠ nm from ⟨hcne, hcnm⟩), hf2]
  · intro nm cn hn hne hf1 hcl hcne hcnm hf2
    subst hn
    simp only [smartGeocode]
    rw [if_pos (show strTruthy (some nm) = true by simp [strTruthy, hne])]
    dsimp only [Option.getD]
    rw [hf1, hcl]
    dsimp only
    rw [if_pos (show cn ≠ "" ∧ cn ≠ nm from ⟨hcne, hcnm⟩), hf2]
  · intro nm hn hne hf1 hcl
    subst hn
    simp only [smartGeocode]
    rw [if_pos (show strTruthy (some nm) = true by simp [strTruthy, hne])]
    dsimp only [Option.getD]
    rw [hf1]
    rcases hcl with hcl | hcl
    · rw [hcl]
    · rw [hcl]
      dsimp only
      rw [if_neg (show ¬(nm ≠ "" ∧ nm ≠ nm) from fun hp => hp.2 rfl)]

/-- C5 witness: the raw name fails, cleaning strips the category and address
    fragments, and the retry with the cleaned name succeeds; the result keeps
    the original display name with the cleaned-name geocoded coordinates. -/
theorem C5_forward_geocode_branch_witness :
    smartGeocode (fun _ => none) c5Fwd c5Options =
      (some ⟨c5Name, linaPlace.address, linaPlace.lat, linaPlace.lng,
        GeoSource.forward_geocode, some linaPlace⟩,
       [GeoEvent.forwardCall c5Name, GeoEvent.forwardCall c5Cleaned]) :=
  (C5_forward_geocode_branch (fun _ => none) c5Fwd c5Options rfl).2.2.1
    c5Name c5Cleaned linaPlace rfl (by decide) (by decide) (by decide) (by decide)
    (by decide) (by decide)

/-- C6 (code bug): the documented rate-limit obligation is violated: in the
    cleaned-name retry the orchestrator awaits the second forward-geocode call
    immediately after the failed first one, with no await of the delay helper
    between them, so the trace is two consecutive forwardCall events without a
    delayCall. -/
theorem C6_no_delay_between_sequential_calls :
    (smartGeocode (fun _ => none) (fun _ => none) c6Options).2 =
      [GeoEvent.forwardCall c6Name, GeoEvent.forwardCall "Noble Rot Soho"] ∧
    (∀ e ∈ (smartGeocode (fun _ => none) (fun _ => none) c6Options).2,
      GeoEvent.isDelay e = false) := by
  constructor
  · decide
  · decide

/-- C7: expandShortenedUrl never returns a final URL that fails the domain
    rules of isGoogleMapsUrl: such a redirect target yields the null failure,
    while a passing final URL is returned as is. -/
theorem C7_expand_validates_redirect :
    ∀ finalUrl : String,
      (isGoogleMapsUrl finalUrl = false →
        expandShortenedUrl (ExpandOutcome.resolved finalUrl) = none) ∧
      (isGoogleMapsUrl finalUrl = true →
        expandShortenedUrl (ExpandOutcome.resolved finalUrl) = some finalUrl) ∧
      (∀ w, expandShortenedUrl (ExpandOutcome.resolved finalUrl) = some w →
        isGoogleMapsUrl w = true) := by
  intro u
  refine ⟨?_, ?_, ?_⟩
  · intro h
    simp [expandShortenedUrl, h]
  · intro h
    simp [expandShortenedUrl, h]
  · intro w hw
    simp only [expandShortenedUrl] at hw
    by_cases h : isGoogleMapsUrl u = true
    · rw [if_pos h] at hw
      cases hw
      exact h
    · rw [if_neg h] at hw
      cases hw

/-- C7 witness: a non-maps redirect target is rejected, a maps target is
    returned. -/
theorem C7_expand_validates_redirect_witness :
    expandShortenedUrl (ExpandOutcome.resolved c7BadUrl) = none ∧
    expandShortenedUrl (ExpandOutcome.resolved c7GoodUrl) = some c7GoodUrl :=
  ⟨(C7_expand_validates_redirect c7BadUrl).1 (by decide),
   (C7_expand_validates_redirect c7GoodUrl).2.1 (by decide)⟩

/-- C8: the geocoders never throw and collapse every failure to null: a caught
    exception, a non-success HTTP status, and (for the forward search) a
    successful response with an empty result array all produce the same null,
    indistinguishable to callers. -/
theorem C8_geocode_error_paths :
    reverseGeocode FetchOutcome.threw = none ∧
    (∀ data : NominatimResponse, reverseGeocode (FetchOutcome.response false data) = none) ∧
    (∀ q : String, forwardGeocode q FetchOutcome.threw = none) ∧
    (∀ (q : String) (data : List NominatimResponse),
      forwardGeocode q (FetchOutcome.response false data) = none) ∧
    (∀ q : String, forwardGeocode q (FetchOutcome.response true []) = none) :=
  ⟨rfl, fun _ => rfl, fun _ => rfl, fun _ _ => rfl, fun _ => rfl⟩

/-- C9: the /place/ capture is plus- and percent-decoded and trimmed; a result
    shorter than 2 characters or purely numeric is rejected as null, a missing
    capture gives null, and the Big Ben URL yields Big Ben. -/
theorem C9_place_name_extraction :
    extractPlaceNameFromUrl "https://www.google.com/maps/place/Big+Ben/@51.5,-0.1,17z"
      = some "Big Ben" ∧
    (∀ url : String, placeSeg url.data = none → extractPlaceNameFromUrl url = none) ∧
    (∀ (url : String) (seg d : List Char),
      placeSeg url.data = some seg →
      decodeUriComponent (plusDecode seg) = Except.ok d →
      extractPlaceNameFromUrl url =
        (if (jsTrimList d).length < 2 ∨ isAllDigits (jsTrimList d) then none
         else some (String.mk (jsTrimList d)))) := by
  refine ⟨by decide, ?_, ?_⟩
  · intro url h
    by_cases hu : url = ""
    · subst hu
      rfl
    · unfold extractPlaceNameFromUrl
      rw [if_neg hu]
      unfold extractPlaceNameTry
      rw [h]
  · intro url seg d hseg hdec
    have hu : url ≠ "" := by
      intro he
      subst he
      exact Option.noConfusion hseg
    unfold extractPlaceNameFromUrl
    rw [if_neg hu]
    unfold extractPlaceNameTry
    rw [hseg]
    dsimp only
    rw [hdec]
    dsimp only
    by_cases hc : (jsTrimList d).length < 2 ∨ isAllDigits (jsTrimList d) = true
    · rw [if_pos hc, if_pos hc]
    · rw [if_neg hc, if_neg hc]

/-- C9 witness: a URL without a /place/ segment gives null, and a purely
    numeric segment gives null. -/
theorem C9_place_name_extraction_witness :
    extractPlaceNameFromUrl c9NoPlace = none ∧
    extractPlaceNameFromUrl c9Numeric = none := by
  constructor
  · exact C9_place_name_extraction.2.1 c9NoPlace (by decide)
  · have h := C9_place_name_extraction.2.2 c9Numeric ['1', '2', '3', '4']
      ['1', '2', '3', '4'] (by decide) (by rfl)
    rw [h]
    decide

/-- C10: extractPlaceNameFromUrl is total: whenever the try block raises (in
    particular on malformed percent encoding) the public function returns null
    instead of propagating, and the empty input also returns null. -/
theorem C10_total_never_throws :
    (∀ (url : String) (e : String), extractPlaceNameTry url = Except.error e →
      extractPlaceNameFromUrl url = none) ∧
    extractPlaceNameFromUrl "" = none := by
  constructor
  · intro url e h
    by_cases hu : url = ""
    · subst hu
      rfl
    · unfold extractPlaceNameFromUrl
      rw [if_neg hu, h]
  · rfl

/-- C10 witness: the lone percent sign in the /place/ segment makes decoding
    raise URIError, and the public function returns null. -/
theorem C10_total_never_throws_witness :
    extractPlaceNameTry c10Url = Except.error "URIError" ∧
    extractPlaceNameFromUrl c10Url = none :=
  ⟨by rfl, C10_total_never_throws.1 c10Url "URIError" (by rfl)⟩
